import Mathlib

/-!
Verification of the dev-events application data layer.

This development embeds, in Lean, the validation and normalization logic of
the two Mongoose document models (Event in `src/database/event.model.ts`,
Booking in `src/database/booking.model.ts`) and the slug lookup route
(`src/app/api/events/[slug]/route.ts`).  Strings are represented as lists of
characters; every JavaScript string operation used by the source (specific
regular expression tests, `toLowerCase`, `trim`, `replace` with a
character-class pattern, `parseInt` on captured digit groups, `padStart`) is
embedded as an explicit executable function on character lists.
-/

namespace DevEvents

/-- Strings modelled as lists of characters. -/
abbrev Str := List Char

/-- The JavaScript regular-expression class `\w`, that is `[A-Za-z0-9_]`. -/
def isWordChar (c : Char) : Bool :=
  ('a' ≤ c && c ≤ 'z') || ('A' ≤ c && c ≤ 'Z') || ('0' ≤ c && c ≤ '9') || c == '_'

/-- The JavaScript regular-expression class `\s` (also the character set
removed by `String.prototype.trim`): ASCII whitespace, NBSP, and the Unicode
space separators, line separators and BOM. -/
def jsIsSpace (c : Char) : Bool :=
  c.toNat == 9 || c.toNat == 10 || c.toNat == 11 || c.toNat == 12 ||
  c.toNat == 13 || c.toNat == 32 || c.toNat == 0xa0 || c.toNat == 0x1680 ||
  (0x2000 ≤ c.toNat && c.toNat ≤ 0x200a) || c.toNat == 0x2028 ||
  c.toNat == 0x2029 || c.toNat == 0x202f || c.toNat == 0x205f ||
  c.toNat == 0x3000 || c.toNat == 0xfeff

/-- `String.prototype.toLowerCase`, restricted to the ASCII range: characters
`A`-`Z` are shifted to `a`-`z`, everything else is untouched.  (The non-ASCII
mappings of the JavaScript function act only on characters that the slug
pipeline strips, so they are irrelevant to the verified properties.) -/
def lowerChar (c : Char) : Char :=
  if 'A' ≤ c && c ≤ 'Z' then Char.ofNat (c.toNat + 32) else c

/-- `String.prototype.trim` on the leading edge is `List.dropWhile jsIsSpace`;
this is the trailing edge: remove the maximal whitespace suffix. -/
def trimEnd : Str → Str
  | [] => []
  | c :: rest =>
    match trimEnd rest with
    | [] => if jsIsSpace c then [] else [c]
    | r => c :: r

/-- `String.prototype.trim`: drop leading and trailing whitespace. -/
def jsTrim (l : Str) : Str := trimEnd (l.dropWhile jsIsSpace)

/-- Worker for `collapseRuns`: the boolean state remembers whether the
previous character was part of a (still open) run of `p`-characters. -/
def collapseRunsAux (p : Char → Bool) (r : Char) : Str → Bool → Str
  | [], _ => []
  | c :: rest, inRun =>
    if p c then
      if inRun then collapseRunsAux p r rest true
      else r :: collapseRunsAux p r rest true
    else c :: collapseRunsAux p r rest false

/-- `String.prototype.replace(/X+/g, r)` for a character class `X`: every
maximal run of characters satisfying `p` is replaced by the single
character `r`. -/
def collapseRuns (p : Char → Bool) (r : Char) (l : Str) : Str :=
  collapseRunsAux p r l false

/-- The slug derivation of `EventSchema.pre('save')`:
`title.toLowerCase().replace(/[^\w\s-]/g, '').replace(/\s+/g, '-')
.replace(/[-]+/g, '-').trim()` (the third replace is written `[-]+` here for
the same pattern the source spells with a bare hyphen). -/
def slugify (t : Str) : Str :=
  jsTrim (collapseRuns (fun c => c == '-') '-'
    (collapseRuns jsIsSpace '-'
      ((t.map lowerChar).filter (fun c => isWordChar c || jsIsSpace c || c == '-'))))

/-- The character set the specification allows in a derived slug, extended
with the underscore that the `\w` class keeps: `[a-z0-9_-]`. -/
def allowedSlugChar (c : Char) : Bool :=
  ('a' ≤ c && c ≤ 'z') || ('0' ≤ c && c ≤ '9') || c == '_' || c == '-'

/-- `true` when the list never has two adjacent hyphens. -/
def headNotHyphen : Str → Bool
  | [] => true
  | c :: _ => !(c == '-')

/-- No two consecutive hyphens anywhere in the list. -/
def noDoubleHyphen : Str → Bool
  | [] => true
  | c :: rest => (if c == '-' then headNotHyphen rest else true) && noDoubleHyphen rest

/-- `Char.isDigit`, spelled out: the class `\d` = `[0-9]`. -/
def isDigitChar (c : Char) : Bool := '0' ≤ c && c ≤ '9'

/-- Test of the anchored regular expression `\d{4}-\d{2}-\d{2}` used by the
date branch of `EventSchema.pre('save')`. -/
def dateRegexTest : Str → Bool
  | [y1, y2, y3, y4, s1, m1, m2, s2, d1, d2] =>
    isDigitChar y1 && isDigitChar y2 && isDigitChar y3 && isDigitChar y4 &&
    s1 == '-' && isDigitChar m1 && isDigitChar m2 && s2 == '-' &&
    isDigitChar d1 && isDigitChar d2
  | _ => false

/-- The hour alternative `([01]\d|2[0-3])` of the strict time regular
expression. -/
def hourOK (a b : Char) : Bool :=
  ((a == '0' || a == '1') && isDigitChar b) || (a == '2' && ('0' ≤ b && b ≤ '3'))

/-- The minute group `([0-5]\d)` of the strict time regular expression. -/
def minOK (a b : Char) : Bool := ('0' ≤ a && a ≤ '5') && isDigitChar b

/-- Test of the anchored regular expression `([01]\d|2[0-3]):([0-5]\d)` used
by the time branch of `EventSchema.pre('save')`. -/
def timeRegexTest : Str → Bool
  | [h1, h2, c, m1, m2] => hourOK h1 h2 && c == ':' && minOK m1 m2
  | _ => false

/-- `this.time.match(/^(\d{1,2}):(\d{2})$/)`: on success, the two captured
groups (a one- or two-digit hour, a two-digit minute). -/
def timeCaptures : Str → Option (Str × Str)
  | [a, c, b1, b2] =>
    if isDigitChar a && c == ':' && isDigitChar b1 && isDigitChar b2 then
      some ([a], [b1, b2])
    else none
  | [a1, a2, c, b1, b2] =>
    if isDigitChar a1 && isDigitChar a2 && c == ':' && isDigitChar b1 && isDigitChar b2 then
      some ([a1, a2], [b1, b2])
    else none
  | _ => none

/-- `parseInt(g, 10)` on a captured group that the regular expression
guarantees to consist of decimal digits. -/
def parseIntDigits (l : Str) : Nat :=
  l.foldl (fun acc c => 10 * acc + (c.toNat - 48)) 0

/-- `n.toString().padStart(2, '0')` at the call sites of the hook, where the
preceding range guards bound `n` by 23 (hours) and 59 (minutes), so `n` has
at most two decimal digits. -/
def pad2 (n : Nat) : Str :=
  if n < 10 then ['0', Nat.digitChar n]
  else [Nat.digitChar (n / 10), Nat.digitChar (n % 10)]

/-- Error message of the date branch of `EventSchema.pre('save')`. -/
def invalidDateMsg : String := "Invalid date format. Expected ISO format (YYYY-MM-DD)"

/-- Error message of the time-format branch of `EventSchema.pre('save')`. -/
def invalidTimeFmtMsg : String := "Invalid time format. Expected HH:MM (24-hour format)"

/-- Error message of the time-range branch of `EventSchema.pre('save')`. -/
def invalidTimeRangeMsg : String := "Invalid time. Hours must be 0-23 and minutes 0-59"

/-- The time branch of `EventSchema.pre('save')`, for a time value that is
modified: either the normalized time string, or the `Error` the hook builds. -/
def normalizeTime (t : Str) : Except String Str :=
  if timeRegexTest t then .ok t
  else
    match timeCaptures t with
    | none => .error invalidTimeFmtMsg
    | some (hg, mg) =>
      let hours := parseIntDigits hg
      let minutes := parseIntDigits mg
      if hours > 23 || minutes > 59 then .error invalidTimeRangeMsg
      else .ok (pad2 hours ++ ':' :: pad2 minutes)

/-- A parsed calendar date, as produced by a successful `new Date(s)`:
the UTC year, month and day that `toISOString` would print. -/
structure IsoDate where
  year : Nat
  month : Nat
  day : Nat
deriving DecidableEq

/-- `k`-digit zero padding (`padStart(k, '0')`). -/
def padStart (k : Nat) (c : Char) (l : Str) : Str :=
  List.replicate (k - l.length) c ++ l

/-- `parsedDate.toISOString().split('T')[0]`: the `YYYY-MM-DD` rendering of
the UTC date component, for years in the four-digit range the application
uses. -/
def isoFormat (d : IsoDate) : Str :=
  padStart 4 '0' (Nat.toDigits 10 d.year) ++ '-' :: pad2 d.month ++ '-' :: pad2 d.day

/-- Partial model of the JavaScript `new Date(string)` parser, used only at
the concrete inputs of the theorems below: a string in the strict
`YYYY-MM-DD` form with a real month and day parses to that calendar date,
and garbage strings (the only other inputs the theorems use) yield
`Invalid Date`, that is `none`.  (Engine-specific fallback formats such as
RFC 2822 dates are outside the inputs exercised here.) -/
def jsDateParse (s : Str) : Option IsoDate :=
  match s with
  | [y1, y2, y3, y4, s1, m1, m2, s2, d1, d2] =>
    if isDigitChar y1 && isDigitChar y2 && isDigitChar y3 && isDigitChar y4 &&
       s1 == '-' && isDigitChar m1 && isDigitChar m2 && s2 == '-' &&
       isDigitChar d1 && isDigitChar d2 then
      let month := parseIntDigits [m1, m2]
      let day := parseIntDigits [d1, d2]
      if 1 ≤ month && month ≤ 12 && 1 ≤ day && day ≤ 31 then
        some ⟨parseIntDigits [y1, y2, y3, y4], month, day⟩
      else none
    else none
  | _ => none

/-- The fields of an Event document that the pre-save hook and the lookup
route read or write.  The schema's further required text fields
(`description`, `overview`, `image`, `venue`, `location`, `mode`,
`audience`, `agenda`, `organizer`, `tags`) take no part in the hook or in
the slug lookup and are left out of the embedding. -/
structure EventDoc where
  title : Str
  slug : Str
  date : Str
  time : Str
deriving DecidableEq

/-- The `isModified` flags the hook consults (`title`, `date`, `time`); a
newly inserted document has every flag set. -/
structure ModifiedFlags where
  title : Bool
  date : Bool
  time : Bool
deriving DecidableEq

/-- All fields modified: the flag state of a fresh insert. -/
def allModified : ModifiedFlags := ⟨true, true, true⟩

/-- The possible ways an asynchronous Mongoose middleware function can
finish:
* `ok`: the promise resolved without a meaningful value;
* `retVal`: the promise resolved, and the resolution value was an `Error`
  built with `return new Error(...)` inside the hook body;
* `nextErr`: the hook called `next(err)`;
* `thrown`: the hook threw, rejecting the promise.
Each data-carrying constructor also records the document state the hook
left behind. -/
inductive HookOutcome (α : Type) where
  | ok (doc : α)
  | retVal (err : String) (doc : α)
  | nextErr (err : String)
  | thrown (err : String)
deriving DecidableEq

/-- Mongoose middleware contract for asynchronous hooks (the behaviour of
the `kareem` pipeline the models run under, as documented by Mongoose): a
pre-save hook aborts the save only by throwing (rejecting its promise) or by
passing an error to `next`; the resolution value of a fulfilled promise is
discarded, so an `Error` that is merely `return`ed lets the save proceed
with whatever document state the hook produced. -/
def middlewareResult : HookOutcome α → Except String α
  | .ok d => .ok d
  | .retVal _ d => .ok d
  | .nextErr e => .error e
  | .thrown e => .error e

/-- The slug block of `EventSchema.pre('save')`: when `title` is modified,
recompute `slug` from it. -/
def slugStep (m : ModifiedFlags) (doc : EventDoc) : EventDoc :=
  if m.title then { doc with slug := slugify doc.title } else doc

/-- The date block of `EventSchema.pre('save')`: when `date` is modified and
not already in `YYYY-MM-DD` form, parse it (`new Date`) and reformat, or
build the `InvalidDate` error. -/
def dateStep (parse : Str → Option IsoDate) (m : ModifiedFlags) (doc : EventDoc) :
    Except String EventDoc :=
  if m.date then
    if !dateRegexTest doc.date then
      match parse doc.date with
      | none => .error invalidDateMsg
      | some pd => .ok { doc with date := isoFormat pd }
    else .ok doc
  else .ok doc

/-- The time block of `EventSchema.pre('save')`: when `time` is modified,
normalize it or build the `InvalidTime` error. -/
def timeStep (m : ModifiedFlags) (doc : EventDoc) : Except String EventDoc :=
  if m.time then
    match normalizeTime doc.time with
    | .error e => .error e
    | .ok t => .ok { doc with time := t }
  else .ok doc

/-- `EventSchema.pre('save')` in full.  The hook is an `async function`
without a `next` parameter; each `return new Error(...)` in its body
resolves the promise with the `Error` as a value, which the embedding
records with the `retVal` constructor (together with the document state at
that return).  The hook never throws and never calls `next`. -/
def eventPreSave (parse : Str → Option IsoDate) (m : ModifiedFlags) (doc : EventDoc) :
    HookOutcome EventDoc :=
  match dateStep parse m (slugStep m doc) with
  | .error e => .retVal e (slugStep m doc)
  | .ok d2 =>
    match timeStep m d2 with
    | .error e => .retVal e d2
    | .ok d3 => .ok d3

/-- The document state the event hook hands to the rest of the save
pipeline (defined for every outcome; the event hook only produces `ok` and
`retVal`). -/
def eventHookDoc (parse : Str → Option IsoDate) (m : ModifiedFlags) (doc : EventDoc) :
    EventDoc :=
  match eventPreSave parse m doc with
  | .ok d => d
  | .retVal _ d => d
  | .nextErr _ => doc
  | .thrown _ => doc

/-- Modelled from the spec: the storage layer enforces the unique index
`EventSchema.index({ slug: 1 }, { unique: true })` declared in
`src/database/event.model.ts`; an insert whose `slug` collides with a
stored document fails with `DuplicateKey` and writes nothing.  (The
enforcement itself lives in MongoDB, not in this repository.) -/
def insertEvent (e : EventDoc) (store : List EventDoc) :
    Except String Unit × List EventDoc :=
  if store.any (fun x => x.slug == e.slug) then (.error "DuplicateKey", store)
  else (.ok (), store ++ [e])

/-- `document.save()` for an Event: run the pre-save hook under the
middleware contract, then insert.  Returns the operation result together
with the store contents afterwards. -/
def saveEvent (parse : Str → Option IsoDate) (m : ModifiedFlags) (doc : EventDoc)
    (store : List EventDoc) : Except String Unit × List EventDoc :=
  match middlewareResult (eventPreSave parse m doc) with
  | .error e => (.error e, store)
  | .ok d => insertEvent d store

/-- The fields of a Booking document that its pre-save hook reads (the
`email` field and its validator take no part in the referential check and
are carried along untouched). -/
structure BookingDoc where
  eventId : Str
  email : Str
deriving DecidableEq

/-- `BookingSchema.pre('save')` from `src/database/booking.model.ts`.  When
`eventId` is modified, the hook runs `Event.exists({ _id: this.eventId })`
(abstracted as `existsCheck`, whose `Except.error` case is the `catch`
branch reached when the lookup itself fails) and calls `next` with an
`Error` when the event is absent; otherwise it calls plain `next()`. -/
def bookingPreSave (existsCheck : Str → Except String Bool) (modified : Bool)
    (b : BookingDoc) : HookOutcome BookingDoc :=
  if modified then
    match existsCheck b.eventId with
    | .error e => .nextErr e
    | .ok false =>
      .nextErr ("Event with ID " ++ String.mk b.eventId ++ " does not exist")
    | .ok true => .ok b
  else .ok b

/-- `document.save()` for a Booking against a store holding the identifiers
of the existing Event documents: run the pre-save hook (its existence check
is the membership query against those identifiers) under the middleware
contract, then append the document.  Returns the operation result together
with the booking store afterwards. -/
def saveBooking (eventIds : List Str) (modified : Bool) (b : BookingDoc)
    (store : List BookingDoc) : Except String Unit × List BookingDoc :=
  match middlewareResult
      (bookingPreSave (fun i => .ok (eventIds.contains i)) modified b) with
  | .error e => (.error e, store)
  | .ok d => (.ok (), store ++ [d])

/-- The anchored slug shape `[a-z0-9]` alternatives accepted by
`isValidSlug` in `src/app/api/events/[slug]/route.ts`. -/
def isSlugChar (c : Char) : Bool := ('a' ≤ c && c ≤ 'z') || ('0' ≤ c && c ≤ '9')

/-- State machine for the anchored regular expression
`[a-z0-9]+(?:-[a-z0-9]+)*`: the flag records whether at least one slug
character has been consumed since the start or the last hyphen. -/
def slugRegexAux : Str → Bool → Bool
  | [], inChunk => inChunk
  | c :: r, inChunk =>
    if isSlugChar c then slugRegexAux r true
    else if c == '-' && inChunk then slugRegexAux r false
    else false

/-- `isValidSlug` from the route: test against `[a-z0-9]+(?:-[a-z0-9]+)*`,
anchored at both ends. -/
def isValidSlug (s : Str) : Bool := slugRegexAux s false

/-- 400 message for an absent slug parameter. -/
def missingSlugMsg : String := "Slug parameter is required"

/-- 400 message for a slug that fails `isValidSlug`. -/
def invalidSlugFormatMsg : String :=
  "Invalid slug format. Slug must be lowercase alphanumeric with hyphens only"

/-- The JSON response of `GET /api/events/[slug]`, together with an
instrumentation flag: `dbTouched` is `true` exactly when the handler reached
the `await connectDB()` line, so `dbTouched = false` means the request was
answered without any database connection or query. -/
structure RouteResponse where
  status : Nat
  message : String
  error : Option String
  event : Option EventDoc
  dbTouched : Bool
deriving DecidableEq

/-- The `GET` handler of `src/app/api/events/[slug]/route.ts`.  `connect`
models `connectDB()` and `lookup` models `Event.findOne({ slug })`; an
`Except.error` from either is the exception the `catch` block turns into a
500 response. -/
def GET (connect : Except String Unit) (lookup : Str → Except String (Option EventDoc))
    (slug : Str) : RouteResponse :=
  if slug.isEmpty || (jsTrim slug).isEmpty then
    ⟨400, "Validation error", some missingSlugMsg, none, false⟩
  else
    let normalizedSlug := jsTrim (slug.map lowerChar)
    if !isValidSlug normalizedSlug then
      ⟨400, "Validation error", some invalidSlugFormatMsg, none, false⟩
    else
      match connect with
      | .error e => ⟨500, "Internal server error", some e, none, true⟩
      | .ok _ =>
        match lookup normalizedSlug with
        | .error e => ⟨500, "Internal server error", some e, none, true⟩
        | .ok none =>
          ⟨404, "Not found",
            some ("Event with slug \x27" ++ String.mk normalizedSlug ++
              "\x27 does not exist"), none, true⟩
        | .ok (some ev) => ⟨200, "Event fetched successfully", none, some ev, true⟩

theorem slugStep_date (m : ModifiedFlags) (doc : EventDoc) :
    (slugStep m doc).date = doc.date := by
  unfold slugStep; split <;> rfl

theorem slugStep_time (m : ModifiedFlags) (doc : EventDoc) :
    (slugStep m doc).time = doc.time := by
  unfold slugStep; split <;> rfl

theorem slugStep_slug (m : ModifiedFlags) (doc : EventDoc) (h : m.title = true) :
    (slugStep m doc).slug = slugify doc.title := by
  unfold slugStep; rw [h]; simp

theorem dateStep_slug (parse : Str → Option IsoDate) (m : ModifiedFlags)
    (d d' : EventDoc) (h : dateStep parse m d = .ok d') : d'.slug = d.slug := by
  unfold dateStep at h
  split at h
  · split at h
    · split at h
      · exact absurd h (by simp)
      · cases h; rfl
    · cases h; rfl
  · cases h; rfl

theorem dateStep_time (parse : Str → Option IsoDate) (m : ModifiedFlags)
    (d d' : EventDoc) (h : dateStep parse m d = .ok d') : d'.time = d.time := by
  unfold dateStep at h
  split at h
  · split at h
    · split at h
      · exact absurd h (by simp)
      · cases h; rfl
    · cases h; rfl
  · cases h; rfl

theorem timeStep_slug (m : ModifiedFlags) (d d' : EventDoc)
    (h : timeStep m d = .ok d') : d'.slug = d.slug := by
  unfold timeStep at h
  split at h
  · split at h
    · exact absurd h (by simp)
    · cases h; rfl
  · cases h; rfl

theorem timeStep_date (m : ModifiedFlags) (d d' : EventDoc)
    (h : timeStep m d = .ok d') : d'.date = d.date := by
  unfold timeStep at h
  split at h
  · split at h
    · exact absurd h (by simp)
    · cases h; rfl
  · cases h; rfl

/-- The event pre-save hook resolves: it never throws and never calls
`next`. -/
theorem eventPreSave_resolves (parse : Str → Option IsoDate) (m : ModifiedFlags)
    (doc : EventDoc) (e : String) :
    eventPreSave parse m doc ≠ .nextErr e ∧ eventPreSave parse m doc ≠ .thrown e := by
  unfold eventPreSave
  cases hd : dateStep parse m (slugStep m doc) with
  | error e2 => exact ⟨by simp, by simp⟩
  | ok d2 =>
    cases ht : timeStep m d2 with
    | error e2 => exact ⟨by simp [ht], by simp [ht]⟩
    | ok d3 => exact ⟨by simp [ht], by simp [ht]⟩

/-- Under the middleware contract the event save pipeline always receives
`eventHookDoc`: even a hook run that built an `Error` proceeds to the
insert. -/
theorem eventSave_eq (parse : Str → Option IsoDate) (m : ModifiedFlags)
    (doc : EventDoc) (store : List EventDoc) :
    saveEvent parse m doc store = insertEvent (eventHookDoc parse m doc) store := by
  rcases h : eventPreSave parse m doc with d | ⟨e, d⟩ | e | e
  · simp [saveEvent, eventHookDoc, middlewareResult, h]
  · simp [saveEvent, eventHookDoc, middlewareResult, h]
  · exact absurd h (eventPreSave_resolves parse m doc e).1
  · exact absurd h (eventPreSave_resolves parse m doc e).2

/-- The document the event hook passes on keeps the slug derived from the
title whenever the title is modified. -/
theorem eventHookDoc_slug (parse : Str → Option IsoDate) (m : ModifiedFlags)
    (doc : EventDoc) (h : m.title = true) :
    (eventHookDoc parse m doc).slug = slugify doc.title := by
  unfold eventHookDoc eventPreSave
  cases hd : dateStep parse m (slugStep m doc) with
  | error e => exact slugStep_slug m doc h
  | ok d2 =>
    cases ht : timeStep m d2 with
    | error e =>
      simp only [ht]
      rw [dateStep_slug _ _ _ _ hd, slugStep_slug m doc h]
    | ok d3 =>
      simp only [ht]
      rw [timeStep_slug _ _ _ ht, dateStep_slug _ _ _ _ hd, slugStep_slug m doc h]

/-- C1: for every Booking candidate whose `eventId` is new or changed
(`modified = true`) and does not resolve to an existing Event identifier,
the save fails with the dangling-reference error of the pre-save hook and
the booking store is left unchanged: no document is written. -/
theorem booking_dangling_reference_rejected (eventIds : List Str) (b : BookingDoc)
    (store : List BookingDoc) (habs : b.eventId ∉ eventIds) :
    saveBooking eventIds true b store =
      (.error ("Event with ID " ++ String.mk b.eventId ++ " does not exist"), store) := by
  unfold saveBooking bookingPreSave
  simp [habs, middlewareResult, String.mk]

/-- Witness for C1: a booking that references the absent event `e2` while
only `e1` exists is rejected and nothing is stored. -/
theorem booking_dangling_reference_rejected_witness :
    saveBooking ["e1".data] true ⟨"e2".data, "a@b.c".data⟩ [] =
      (.error "Event with ID e2 does not exist", []) := by
  have h := booking_dangling_reference_rejected ["e1".data]
    ⟨"e2".data, "a@b.c".data⟩ [] (by decide)
  simpa using h

/-- C10: every date string matching the `YYYY-MM-DD` shape regular
expression is accepted by the date branch as-is, with no calendar-validity
check, and the document the hook passes to the insert still carries that
exact string. -/
theorem date_regex_accepted_asis (parse : Str → Option IsoDate) (m : ModifiedFlags)
    (doc : EventDoc) (h : dateRegexTest doc.date = true) :
    dateStep parse m doc = .ok doc ∧ (eventHookDoc parse m doc).date = doc.date := by
  have hstep : ∀ d : EventDoc, dateRegexTest d.date = true → dateStep parse m d = .ok d := by
    intro d hd
    cases hm : m.date <;> simp [dateStep, hd, hm]
  refine ⟨hstep doc h, ?_⟩
  have h1 : dateRegexTest (slugStep m doc).date = true := by rw [slugStep_date]; exact h
  unfold eventHookDoc eventPreSave
  rw [hstep _ h1]
  cases ht : timeStep m (slugStep m doc) with
  | error e =>
    simp only [ht]
    exact slugStep_date m doc
  | ok d3 =>
    simp only [ht]
    rw [timeStep_date _ _ _ ht, slugStep_date]

/-- Witness for C10: the calendar-impossible string `2025-13-99` matches the
shape regular expression, passes the date branch untouched, and is the date
the hook hands to the insert. -/
theorem date_regex_accepted_asis_witness :
    dateStep jsDateParse allModified
        ⟨"Tech Meetup".data, [], "2025-13-99".data, "10:00".data⟩ =
      .ok ⟨"Tech Meetup".data, [], "2025-13-99".data, "10:00".data⟩ ∧
    (eventHookDoc jsDateParse allModified
        ⟨"Tech Meetup".data, [], "2025-13-99".data, "10:00".data⟩).date =
      "2025-13-99".data :=
  date_regex_accepted_asis jsDateParse allModified
    ⟨"Tech Meetup".data, [], "2025-13-99".data, "10:00".data⟩ (by decide)

/-- C3: divergence witness for the date branch.  For the modified date
`not-a-date` (fails the shape regular expression, unparsable), the hook
builds the `InvalidDate` error but `return`s it as the resolution value of
the async middleware, so the save is NOT aborted: it completes and persists
the raw string `not-a-date`. -/
theorem date_error_returned_save_completes :
    eventPreSave jsDateParse allModified
        ⟨"Tech Meetup".data, [], "not-a-date".data, "10:00".data⟩ =
      .retVal invalidDateMsg
        ⟨"Tech Meetup".data, "tech-meetup".data, "not-a-date".data, "10:00".data⟩ ∧
    saveEvent jsDateParse allModified
        ⟨"Tech Meetup".data, [], "not-a-date".data, "10:00".data⟩ [] =
      (.ok (), [⟨"Tech Meetup".data, "tech-meetup".data, "not-a-date".data, "10:00".data⟩]) :=
  ⟨rfl, rfl⟩

/-- C4 counterexample: the input `9:5` is NOT mapped to `09:05`.  The
fallback pattern of the time branch requires a two-digit minute group, so
`9:5` produces the InvalidTime format error, and the (completing) save
stores the raw string `9:5`, which differs from `09:05`. -/
theorem time_9_5_not_normalized :
    normalizeTime "9:5".data = .error invalidTimeFmtMsg ∧
    (saveEvent jsDateParse allModified
        ⟨"Tech Meetup".data, [], "2025-01-01".data, "9:5".data⟩ []).2 =
      [⟨"Tech Meetup".data, "tech-meetup".data, "2025-01-01".data, "9:5".data⟩] ∧
    "9:5".data ≠ "09:05".data :=
  ⟨rfl, rfl, by decide⟩

/-- C4 as amended: time normalization rejects `9:5` with the InvalidTime
format error (the fallback parse needs a two-digit minute) and rejects
`25:00` with the InvalidTime range error; in both cases the hook returns the
error as a value, so for `25:00` the save completes and persists the raw
input. -/
theorem time_scenarios_amended :
    normalizeTime "9:5".data = .error invalidTimeFmtMsg ∧
    normalizeTime "25:00".data = .error invalidTimeRangeMsg ∧
    eventPreSave jsDateParse allModified
        ⟨"Dev Conf".data, [], "2025-01-01".data, "25:00".data⟩ =
      .retVal invalidTimeRangeMsg
        ⟨"Dev Conf".data, "dev-conf".data, "2025-01-01".data, "25:00".data⟩ ∧
    saveEvent jsDateParse allModified
        ⟨"Dev Conf".data, [], "2025-01-01".data, "25:00".data⟩ [] =
      (.ok (), [⟨"Dev Conf".data, "dev-conf".data, "2025-01-01".data, "25:00".data⟩]) :=
  ⟨rfl, rfl, rfl, rfl⟩

/-- C6 counterexample: the route does not slugify.  Even against a store
that contains an event with slug `tech-meetup`, the raw input `Tech Meetup!`
is only lowercased and trimmed, fails the slug format validation, and the
request ends with a 400 and `dbTouched = false`: no lookup with
`tech-meetup` happens. -/
theorem tech_meetup_slug_not_looked_up :
    GET (.ok ())
      (fun s => .ok (if s == "tech-meetup".data then
        some ⟨"Tech Meetup".data, "tech-meetup".data, "2025-01-01".data, "10:00".data⟩
        else none))
      "Tech Meetup!".data =
      ⟨400, "Validation error", some invalidSlugFormatMsg, none, false⟩ :=
  rfl

/-- C6 as amended: the route normalizes `Tech Meetup!` only by lowercasing
and trimming, yielding `tech meetup!`; that fails the slug shape
validation, so the request is rejected as a format error (HTTP 400) before
any database connection or store query. -/
theorem tech_meetup_slug_rejected :
    jsTrim ("Tech Meetup!".data.map lowerChar) = "tech meetup!".data ∧
    isValidSlug "tech meetup!".data = false ∧
    GET (.ok ()) (fun _ => .ok none) "Tech Meetup!".data =
      ⟨400, "Validation error", some invalidSlugFormatMsg, none, false⟩ :=
  ⟨rfl, rfl, rfl⟩

/-- C7 as amended: for every raw slug that is non-empty, not
whitespace-only, and whose lowercased and trimmed form fails the slug shape
regular expression, the route answers 400 with the InvalidFormat error and
`dbTouched = false`: no database connection or store query is attempted,
whatever the connection and lookup would do. -/
theorem invalid_format_no_store_access (connect : Except String Unit)
    (lookup : Str → Except String (Option EventDoc)) (s : Str)
    (h1 : s ≠ []) (h2 : jsTrim s ≠ [])
    (h3 : isValidSlug (jsTrim (s.map lowerChar)) = false) :
    GET connect lookup s =
      ⟨400, "Validation error", some invalidSlugFormatMsg, none, false⟩ := by
  unfold GET
  simp [h1, h2, h3]

/-- Witness for C7: the spec scenario `UPPER_CASE` still contains an
underscore after lowercasing and is rejected without store access. -/
theorem invalid_format_no_store_access_witness :
    GET (.ok ()) (fun _ => .ok none) "UPPER_CASE".data =
      ⟨400, "Validation error", some invalidSlugFormatMsg, none, false⟩ :=
  invalid_format_no_store_access (.ok ()) (fun _ => .ok none) "UPPER_CASE".data
    (by decide) (by decide) (by decide)

/-- C7 counterexample: the whitespace-only raw slug consisting of a single
space is non-empty and its lowercased, trimmed form (the empty string) fails
the slug shape regular expression, yet the route answers with the
MissingParameter error, not the InvalidFormat error the claim names. -/
theorem whitespace_slug_missing_parameter :
    isValidSlug (jsTrim (" ".data.map lowerChar)) = false ∧
    GET (.ok ()) (fun _ => .ok none) " ".data =
      ⟨400, "Validation error", some missingSlugMsg, none, false⟩ ∧
    missingSlugMsg ≠ invalidSlugFormatMsg :=
  ⟨by decide, rfl, by decide⟩

/-- C8: slug uniqueness at the storage layer.  For any two event documents
whose titles derive the same slug: saving the first into an empty store
stores it, and saving the second afterwards fails with DuplicateKey and
leaves the first record in place. -/
theorem duplicate_slug_insert_rejected (parse : Str → Option IsoDate)
    (d1 d2 : EventDoc) (h : slugify d2.title = slugify d1.title) :
    (saveEvent parse allModified d1 []).2 = [eventHookDoc parse allModified d1] ∧
    saveEvent parse allModified d2 [eventHookDoc parse allModified d1] =
      (.error "DuplicateKey", [eventHookDoc parse allModified d1]) := by
  constructor
  · rw [eventSave_eq]
    simp [insertEvent]
  · rw [eventSave_eq]
    have h1 : (eventHookDoc parse allModified d1).slug = slugify d1.title :=
      eventHookDoc_slug parse allModified d1 rfl
    have h2 : (eventHookDoc parse allModified d2).slug = slugify d2.title :=
      eventHookDoc_slug parse allModified d2 rfl
    simp [insertEvent, h1, h2, h]

/-- Witness for C8: the titles `Dev Summit` and `Dev  Summit!` both derive
the slug `dev-summit`; the second insert is rejected and the store keeps
the first document. -/
theorem duplicate_slug_insert_rejected_witness :
    (saveEvent jsDateParse allModified
        ⟨"Dev Summit".data, [], "2025-01-01".data, "10:00".data⟩ []).2 =
      [eventHookDoc jsDateParse allModified
        ⟨"Dev Summit".data, [], "2025-01-01".data, "10:00".data⟩] ∧
    saveEvent jsDateParse allModified
        ⟨"Dev  Summit!".data, [], "2025-02-02".data, "11:00".data⟩
        [eventHookDoc jsDateParse allModified
          ⟨"Dev Summit".data, [], "2025-01-01".data, "10:00".data⟩] =
      (.error "DuplicateKey",
        [eventHookDoc jsDateParse allModified
          ⟨"Dev Summit".data, [], "2025-01-01".data, "10:00".data⟩]) :=
  duplicate_slug_insert_rejected jsDateParse
    ⟨"Dev Summit".data, [], "2025-01-01".data, "10:00".data⟩
    ⟨"Dev  Summit!".data, [], "2025-02-02".data, "11:00".data⟩ (by decide)

/-- C9: when a modified date (first part) or time (second part) input fails
its normalization checks, the hook finishes with `retVal`: the Error is the
resolution value of the async function, neither thrown nor passed to
`next`, so under the middleware contract the save completes and the stored
document holds the raw, non-canonical input string. -/
theorem hook_error_returned_save_completes :
    (∀ (parse : Str → Option IsoDate) (m : ModifiedFlags) (doc : EventDoc)
        (store : List EventDoc),
      m.date = true → dateRegexTest doc.date = false → parse doc.date = none →
      store.any (fun x => x.slug == (slugStep m doc).slug) = false →
      eventPreSave parse m doc = .retVal invalidDateMsg (slugStep m doc) ∧
      (slugStep m doc).date = doc.date ∧
      saveEvent parse m doc store = (.ok (), store ++ [slugStep m doc])) ∧
    (∀ (parse : Str → Option IsoDate) (m : ModifiedFlags) (doc : EventDoc)
        (store : List EventDoc),
      m.date = false → m.time = true →
      timeRegexTest doc.time = false → timeCaptures doc.time = none →
      store.any (fun x => x.slug == (slugStep m doc).slug) = false →
      eventPreSave parse m doc = .retVal invalidTimeFmtMsg (slugStep m doc) ∧
      (slugStep m doc).time = doc.time ∧
      saveEvent parse m doc store = (.ok (), store ++ [slugStep m doc])) := by
  constructor
  · intro parse m doc store hm hr hp hnc
    have hds : dateStep parse m (slugStep m doc) = .error invalidDateMsg := by
      unfold dateStep
      rw [hm, slugStep_date, hr]
      simp [hp]
    have hh : eventPreSave parse m doc = .retVal invalidDateMsg (slugStep m doc) := by
      unfold eventPreSave; rw [hds]
    refine ⟨hh, slugStep_date m doc, ?_⟩
    rw [eventSave_eq]
    have hdoc : eventHookDoc parse m doc = slugStep m doc := by
      unfold eventHookDoc; rw [hh]
    rw [hdoc]
    simp [insertEvent, hnc]
  · intro parse m doc store hmd hmt hr hc hnc
    have hds : dateStep parse m (slugStep m doc) = .ok (slugStep m doc) := by
      unfold dateStep; simp [hmd]
    have hnt : normalizeTime doc.time = .error invalidTimeFmtMsg := by
      unfold normalizeTime; rw [hr]
      simp [hc]
    have hts : timeStep m (slugStep m doc) = .error invalidTimeFmtMsg := by
      unfold timeStep
      rw [hmt, slugStep_time]
      simp [hnt]
    have hh : eventPreSave parse m doc = .retVal invalidTimeFmtMsg (slugStep m doc) := by
      unfold eventPreSave
      rw [hds]
      simp only [hts]
    refine ⟨hh, slugStep_time m doc, ?_⟩
    rw [eventSave_eq]
    have hdoc : eventHookDoc parse m doc = slugStep m doc := by
      unfold eventHookDoc; rw [hh]
    rw [hdoc]
    simp [insertEvent, hnc]

/-- Witness for C9: the unparsable date `not-a-date` and the time `9:5`
(two-digit minute missing) are both persisted raw by a completing save. -/
theorem hook_error_returned_save_completes_witness :
    saveEvent jsDateParse allModified
        ⟨"Tech Meetup".data, [], "not-a-date".data, "10:00".data⟩ [] =
      (.ok (), [slugStep allModified
        ⟨"Tech Meetup".data, [], "not-a-date".data, "10:00".data⟩]) ∧
    saveEvent jsDateParse ⟨true, false, true⟩
        ⟨"Tech Meetup".data, [], "2025-01-01".data, "9:5".data⟩ [] =
      (.ok (), [slugStep ⟨true, false, true⟩
        ⟨"Tech Meetup".data, [], "2025-01-01".data, "9:5".data⟩]) :=
  ⟨(hook_error_returned_save_completes.1 jsDateParse allModified
      ⟨"Tech Meetup".data, [], "not-a-date".data, "10:00".data⟩ []
      rfl (by decide) (by decide) rfl).2.2,
   (hook_error_returned_save_completes.2 jsDateParse ⟨true, false, true⟩
      ⟨"Tech Meetup".data, [], "2025-01-01".data, "9:5".data⟩ []
      rfl rfl (by decide) (by decide) rfl).2.2⟩

theorem digitChar_isDigit : ∀ d < 10, isDigitChar (Nat.digitChar d) = true := by decide

theorem digitChar_val : ∀ d < 10, (Nat.digitChar d).toNat - 48 = d := by decide

theorem hourOK_digit : ∀ a < 10, ∀ b < 10,
    hourOK (Nat.digitChar a) (Nat.digitChar b) = decide (10 * a + b ≤ 23) := by decide

theorem minOK_digit : ∀ a < 10, ∀ b < 10,
    minOK (Nat.digitChar a) (Nat.digitChar b) = decide (10 * a + b ≤ 59) := by decide

theorem parseIntDigits_one (a : Nat) (ha : a < 10) :
    parseIntDigits [Nat.digitChar a] = a := by
  have h := digitChar_val a ha
  simp [parseIntDigits, List.foldl]
  omega

theorem parseIntDigits_two (a b : Nat) (ha : a < 10) (hb : b < 10) :
    parseIntDigits [Nat.digitChar a, Nat.digitChar b] = 10 * a + b := by
  have h1 := digitChar_val a ha
  have h2 := digitChar_val b hb
  simp [parseIntDigits, List.foldl]
  omega

theorem pad2_digits (a b : Nat) (ha : a < 10) (hb : b < 10) :
    pad2 (10 * a + b) = [Nat.digitChar a, Nat.digitChar b] := by
  by_cases hlt : 10 * a + b < 10
  · have ha0 : a = 0 := by omega
    subst ha0
    have hb' : 10 * 0 + b = b := by omega
    rw [hb', show Nat.digitChar 0 = '0' from rfl]
    simp [pad2, hb]
  · have e1 : (10 * a + b) / 10 = a := by omega
    have e2 : (10 * a + b) % 10 = b := by omega
    simp [pad2, hlt, e1, e2]

/-- C5: time normalization on every input of the shape `H:MM` or `HH:MM`.
The hour string `hs` is either the two-digit rendering of `h < 100` or the
one-digit rendering of `h < 10` (every such input string arises this way,
since each decimal digit character is `Nat.digitChar` of its value), and
the minute group is the two-digit string of `10 * m1 + m2`.  When the value
is in range (hour at most 23, minute at most 59) the hook produces the
zero-padded `HH:MM`; when it is out of range the validation logic produces
the InvalidTime range error. -/
theorem time_normalization_characterized (h m1 m2 : Nat) (hs : Str)
    (hh : h < 100) (hm1 : m1 < 10) (hm2 : m2 < 10)
    (hhs : hs = [Nat.digitChar (h / 10), Nat.digitChar (h % 10)] ∨
      (h < 10 ∧ hs = [Nat.digitChar h])) :
    (h ≤ 23 ∧ 10 * m1 + m2 ≤ 59 →
      normalizeTime (hs ++ ':' :: [Nat.digitChar m1, Nat.digitChar m2]) =
        .ok (pad2 h ++ ':' :: pad2 (10 * m1 + m2))) ∧
    (23 < h ∨ 59 < 10 * m1 + m2 →
      normalizeTime (hs ++ ':' :: [Nat.digitChar m1, Nat.digitChar m2]) =
        .error invalidTimeRangeMsg) := by
  rcases hhs with h2 | ⟨h1lt, h1⟩
  · subst h2
    have ha : h / 10 < 10 := by omega
    have hb : h % 10 < 10 := by omega
    have hsum : 10 * (h / 10) + h % 10 = h := by omega
    have hph : pad2 h = [Nat.digitChar (h / 10), Nat.digitChar (h % 10)] := by
      have hp := pad2_digits (h / 10) (h % 10) ha hb
      rwa [hsum] at hp
    constructor
    · rintro ⟨hle, hmle⟩
      have hreg : timeRegexTest
          [Nat.digitChar (h / 10), Nat.digitChar (h % 10), ':',
            Nat.digitChar m1, Nat.digitChar m2] = true := by
        simp [timeRegexTest, hourOK_digit _ ha _ hb, minOK_digit _ hm1 _ hm2, hsum]
        omega
      simp [normalizeTime, hreg, hph, pad2_digits m1 m2 hm1 hm2]
    · intro hout
      have hreg : timeRegexTest
          [Nat.digitChar (h / 10), Nat.digitChar (h % 10), ':',
            Nat.digitChar m1, Nat.digitChar m2] = false := by
        simp [timeRegexTest, hourOK_digit _ ha _ hb, minOK_digit _ hm1 _ hm2, hsum]
        omega
      have hcap : timeCaptures
          [Nat.digitChar (h / 10), Nat.digitChar (h % 10), ':',
            Nat.digitChar m1, Nat.digitChar m2] =
          some ([Nat.digitChar (h / 10), Nat.digitChar (h % 10)],
            [Nat.digitChar m1, Nat.digitChar m2]) := by
        simp [timeCaptures, digitChar_isDigit _ ha, digitChar_isDigit _ hb,
          digitChar_isDigit _ hm1, digitChar_isDigit _ hm2]
      simp [normalizeTime, hreg, hcap, parseIntDigits_two _ _ ha hb,
        parseIntDigits_two _ _ hm1 hm2, hsum]
      omega
  · subst h1
    have hreg : timeRegexTest
        [Nat.digitChar h, ':', Nat.digitChar m1, Nat.digitChar m2] = false := rfl
    have hcap : timeCaptures
        [Nat.digitChar h, ':', Nat.digitChar m1, Nat.digitChar m2] =
        some ([Nat.digitChar h], [Nat.digitChar m1, Nat.digitChar m2]) := by
      simp [timeCaptures, digitChar_isDigit _ h1lt,
        digitChar_isDigit _ hm1, digitChar_isDigit _ hm2]
    constructor
    · rintro ⟨hle, hmle⟩
      simp [normalizeTime, hreg, hcap, parseIntDigits_one _ h1lt,
        parseIntDigits_two _ _ hm1 hm2]
      omega
    · intro hout
      simp [normalizeTime, hreg, hcap, parseIntDigits_one _ h1lt,
        parseIntDigits_two _ _ hm1 hm2]
      omega

/-- Witness for C5: `9:05` zero-pads to `09:05`, and `9:99` (minute 99,
out of range) fails with the InvalidTime range error. -/
theorem time_normalization_characterized_witness :
    normalizeTime "9:05".data = .ok "09:05".data ∧
    normalizeTime "9:99".data = .error invalidTimeRangeMsg :=
  ⟨by
    have hth := time_normalization_characterized 9 0 5 [Nat.digitChar 9]
      (by decide) (by decide) (by decide) (Or.inr ⟨by decide, rfl⟩)
    have hc := hth.1 (by omega)
    exact hc,
   by
    have hth := time_normalization_characterized 9 9 9 [Nat.digitChar 9]
      (by decide) (by decide) (by decide) (Or.inr ⟨by decide, rfl⟩)
    have hc := hth.2 (by omega)
    exact hc⟩

theorem mem_collapseRunsAux (p : Char → Bool) (r : Char) :
    ∀ (l : Str) (b : Bool) (c : Char), c ∈ collapseRunsAux p r l b →
      c = r ∨ (c ∈ l ∧ p c = false) := by
  intro l
  induction l with
  | nil => intro b c hc; simp [collapseRunsAux] at hc
  | cons x rest ih =>
    intro b c hc
    by_cases hp : p x = true
    · cases b with
      | false =>
        simp only [collapseRunsAux, hp, if_true] at hc
        rcases List.mem_cons.1 hc with hcr | hmem
        · exact Or.inl hcr
        · rcases ih true c hmem with hl | ⟨hm, hpc⟩
          · exact Or.inl hl
          · exact Or.inr ⟨List.mem_cons_of_mem _ hm, hpc⟩
      | true =>
        simp only [collapseRunsAux, hp, if_true] at hc
        rcases ih true c hc with hl | ⟨hm, hpc⟩
        · exact Or.inl hl
        · exact Or.inr ⟨List.mem_cons_of_mem _ hm, hpc⟩
    · have hp' : p x = false := by simpa using hp
      simp only [collapseRunsAux, hp', Bool.false_eq_true, if_false] at hc
      rcases List.mem_cons.1 hc with hcx | hmem
      · subst hcx; exact Or.inr ⟨List.mem_cons_self _ _, hp'⟩
      · rcases ih false c hmem with hl | ⟨hm, hpc⟩
        · exact Or.inl hl
        · exact Or.inr ⟨List.mem_cons_of_mem _ hm, hpc⟩

theorem mem_trimEnd : ∀ (l : Str) (c : Char), c ∈ trimEnd l → c ∈ l := by
  intro l
  induction l with
  | nil => intro c hc; simp [trimEnd] at hc
  | cons x rest ih =>
    intro c hc
    unfold trimEnd at hc
    cases htr : trimEnd rest with
    | nil =>
      simp only [htr] at hc
      by_cases hs : jsIsSpace x = true
      · simp [hs] at hc
      · simp [hs] at hc
        subst hc; exact List.mem_cons_self _ _
    | cons y ys =>
      simp only [htr] at hc
      rcases List.mem_cons.1 hc with h1 | h2
      · subst h1; exact List.mem_cons_self _ _
      · rw [← htr] at h2
        exact List.mem_cons_of_mem _ (ih c h2)

theorem mem_dropWhile (q : Char → Bool) :
    ∀ (l : Str) (c : Char), c ∈ l.dropWhile q → c ∈ l := by
  intro l
  induction l with
  | nil => intro c hc; simp at hc
  | cons x rest ih =>
    intro c hc
    by_cases hq : q x = true
    · simp only [List.dropWhile, hq, if_true] at hc
      exact List.mem_cons_of_mem _ (ih c hc)
    · have hq' : q x = false := by simpa using hq
      simpa [List.dropWhile, hq'] using hc

theorem noDoubleHyphen_cons (x : Char) (rest : Str)
    (h : noDoubleHyphen (x :: rest) = true) : noDoubleHyphen rest = true := by
  unfold noDoubleHyphen at h
  rw [Bool.and_eq_true] at h
  exact h.2

theorem noDoubleHyphen_head (x : Char) (rest : Str)
    (h : noDoubleHyphen (x :: rest) = true) (hx : (x == '-') = true) :
    headNotHyphen rest = true := by
  unfold noDoubleHyphen at h
  rw [Bool.and_eq_true] at h
  have h1 := h.1
  rw [hx] at h1
  simpa using h1

theorem noDoubleHyphen_collapse :
    ∀ (l : Str) (b : Bool),
      noDoubleHyphen (collapseRunsAux (fun c => c == '-') '-' l b) = true ∧
      (b = true → headNotHyphen (collapseRunsAux (fun c => c == '-') '-' l b) = true) := by
  intro l
  induction l with
  | nil => intro b; exact ⟨rfl, fun _ => rfl⟩
  | cons x rest ih =>
    intro b
    by_cases hx : (x == '-') = true
    · cases b with
      | false =>
        constructor
        · simp only [collapseRunsAux, hx, if_true, Bool.false_eq_true, if_false]
          unfold noDoubleHyphen
          rw [if_pos (show ('-' == '-') = true from rfl), (ih true).2 rfl, (ih true).1]
          rfl
        · intro hb; exact absurd hb (by simp)
      | true =>
        constructor
        · simp only [collapseRunsAux, hx, if_true]
          exact (ih true).1
        · intro _
          simp only [collapseRunsAux, hx, if_true]
          exact (ih true).2 rfl
    · have hx' : (x == '-') = false := by simpa using hx
      constructor
      · simp only [collapseRunsAux, hx', Bool.false_eq_true, if_false]
        unfold noDoubleHyphen
        rw [hx', if_neg (by simp), (ih false).1]
        rfl
      · intro _
        simp only [collapseRunsAux, hx', Bool.false_eq_true, if_false]
        simp [headNotHyphen, hx']

theorem headNotHyphen_trimEnd (l : Str) (h : headNotHyphen l = true) :
    headNotHyphen (trimEnd l) = true := by
  cases l with
  | nil => rfl
  | cons x rest =>
    unfold trimEnd
    cases htr : trimEnd rest with
    | nil =>
      by_cases hs : jsIsSpace x = true
      · simp [hs, headNotHyphen]
      · have hs' : jsIsSpace x = false := by simpa using hs
        simp only [hs', Bool.false_eq_true, if_false]
        simpa [headNotHyphen] using h
    | cons y ys => simpa [headNotHyphen] using h

theorem noDoubleHyphen_trimEnd : ∀ l : Str, noDoubleHyphen l = true →
    noDoubleHyphen (trimEnd l) = true := by
  intro l
  induction l with
  | nil => intro _; rfl
  | cons x rest ih =>
    intro hl
    have hrest : noDoubleHyphen rest = true := noDoubleHyphen_cons x rest hl
    unfold trimEnd
    cases htr : trimEnd rest with
    | nil =>
      by_cases hs : jsIsSpace x = true
      · simp [hs, noDoubleHyphen]
      · have hs' : jsIsSpace x = false := by simpa using hs
        simp [hs', noDoubleHyphen, headNotHyphen]
    | cons y ys =>
      have h1 : noDoubleHyphen (y :: ys) = true := htr ▸ ih hrest
      unfold noDoubleHyphen
      rw [Bool.and_eq_true]
      refine ⟨?_, h1⟩
      by_cases hx : (x == '-') = true
      · rw [if_pos hx]
        have h2 := headNotHyphen_trimEnd rest (noDoubleHyphen_head x rest hl hx)
        rwa [htr] at h2
      · rw [if_neg hx]

theorem noDoubleHyphen_dropWhile (q : Char → Bool) :
    ∀ l : Str, noDoubleHyphen l = true → noDoubleHyphen (l.dropWhile q) = true := by
  intro l
  induction l with
  | nil => intro _; rfl
  | cons x rest ih =>
    intro hl
    by_cases hq : q x = true
    · simp only [List.dropWhile, hq, if_true]
      exact ih (noDoubleHyphen_cons x rest hl)
    · have hq' : q x = false := by simpa using hq
      simpa [List.dropWhile, hq'] using hl

theorem lowerChar_word_allowed (c : Char) (h : isWordChar (lowerChar c) = true) :
    allowedSlugChar (lowerChar c) = true := by
  by_cases hup : ('A' ≤ c && c ≤ 'Z') = true
  · have hup' := hup
    rw [Bool.and_eq_true, decide_eq_true_eq, decide_eq_true_eq] at hup'
    have hle : 65 ≤ c.toNat := hup'.1
    have hge : c.toNat ≤ 90 := hup'.2
    have hlc : lowerChar c = Char.ofNat (c.toNat + 32) := by
      unfold lowerChar
      rw [if_pos hup]
    have hv : (c.toNat + 32).isValidChar := Or.inl (by omega)
    have hv' : (c.val.toNat + 32).isValidChar := hv
    have ht : (Char.ofNat (c.toNat + 32)).toNat = c.toNat + 32 := by
      simp [Char.ofNat, Char.ofNatAux, hv', Char.toNat]
      rfl
    rw [hlc]
    unfold allowedSlugChar
    simp only [Bool.or_eq_true, Bool.and_eq_true, decide_eq_true_eq]
    refine Or.inl (Or.inl (Or.inl ⟨?_, ?_⟩))
    · show 97 ≤ (Char.ofNat (c.toNat + 32)).toNat
      omega
    · show (Char.ofNat (c.toNat + 32)).toNat ≤ 122
      omega
  · have hlc : lowerChar c = c := by
      unfold lowerChar
      rw [if_neg hup]
    rw [hlc] at h ⊢
    unfold isWordChar at h
    unfold allowedSlugChar
    simp only [Bool.or_eq_true, Bool.and_eq_true, decide_eq_true_eq, beq_iff_eq] at h ⊢
    rw [Bool.and_eq_true, decide_eq_true_eq, decide_eq_true_eq] at hup
    rcases h with ((haz | hAZ) | h09) | hund
    · exact Or.inl (Or.inl (Or.inl haz))
    · exact absurd hAZ hup
    · exact Or.inl (Or.inl (Or.inr h09))
    · exact Or.inl (Or.inr hund)

/-- C2 as amended: for every valid (non-empty, trimmed) title, every
character of the derived slug is a lowercase letter, a digit, an underscore
or a hyphen, and hyphens never repeat; leading and trailing hyphens are not
removed, because the final `trim()` of the pipeline strips whitespace, not
hyphens. -/
theorem slug_chars_amended (t : Str) (_hne : t ≠ []) (_htrim : jsTrim t = t) :
    (slugify t).all allowedSlugChar = true ∧ noDoubleHyphen (slugify t) = true := by
  constructor
  · rw [List.all_eq_true]
    intro c hc
    unfold slugify jsTrim at hc
    have hc1 := mem_dropWhile jsIsSpace _ c (mem_trimEnd _ c hc)
    rcases mem_collapseRunsAux _ '-' _ false c hc1 with hcr | ⟨hc2, hph⟩
    · subst hcr; rfl
    · rcases mem_collapseRunsAux jsIsSpace '-' _ false c hc2 with hcr | ⟨hc3, hsp⟩
      · subst hcr; rfl
      · have hc4 := List.mem_filter.1 hc3
        rcases List.mem_map.1 hc4.1 with ⟨c0, _, hcl⟩
        have hkeep := hc4.2
        rw [← hcl] at hsp hph ⊢
        rw [← hcl] at hkeep
        have hw : isWordChar (lowerChar c0) = true := by
          simp only [Bool.or_eq_true] at hkeep
          rcases hkeep with (hw | hs) | hh
          · exact hw
          · rw [hs] at hsp; exact absurd hsp (by simp)
          · rw [hh] at hph; exact absurd hph (by simp)
        exact lowerChar_word_allowed c0 hw
  · unfold slugify jsTrim
    exact noDoubleHyphen_trimEnd _
      (noDoubleHyphen_dropWhile jsIsSpace _ (noDoubleHyphen_collapse _ false).1)

/-- Witness for C2 as amended: the valid title `Dev Summit!` derives the
slug `dev-summit`, whose characters all lie in the allowed set with no
repeated hyphen. -/
theorem slug_chars_amended_witness :
    (slugify "Dev Summit!".data).all allowedSlugChar = true ∧
    noDoubleHyphen (slugify "Dev Summit!".data) = true :=
  slug_chars_amended "Dev Summit!".data (by decide) (by decide)

/-- C2 counterexample: the valid titles `a_b` and `x-` refute the claimed
character set and the claimed absence of a trailing hyphen: the slug of
`a_b` keeps the underscore (not a lowercase alphanumeric or hyphen), and
the slug of `x-` ends in a hyphen. -/
theorem slug_underscore_and_trailing_hyphen :
    slugify "a_b".data = "a_b".data ∧
    (slugify "a_b".data).contains '_' = true ∧
    slugify "x-".data = "x-".data ∧
    (slugify "x-".data).getLast? = some '-' := by
  refine ⟨by decide, by decide, by decide, by decide⟩

end DevEvents
